import Mathlib

/-!
Verification of the Bulk MPI superstep engine (`src/backends/mpi/world_provider.hpp`,
`src/include/bulk/variable.hpp`) against its natural-language specification.

We shallowly embed each peer's `world_provider` state: byte-addressable memory is
a function `Nat → Nat`, the `boost::bimap<void*, var_id_type>` of registered
locations is a list of pairs with boost's insert semantics, and the MPI frames
(`put_header`, `get_header`, `get_response_header` plus payload bytes) are
structures.  Fallible operations (`.at` on a missing key) return `Option`.
`sync` additionally produces the list of protocol events it performs, so that
the ordering of the barrier protocol can be stated as a theorem.
-/

namespace Bulk

/-- A raw address (`void*`) inside one peer's address space. -/
abbrev Addr := Nat

/-- One peer's byte-addressable memory. -/
abbrev Mem := Nat → Nat

/-- Read `n` consecutive bytes starting at address `a` (source of a `memcpy`). -/
def readBytes (m : Mem) (a : Addr) (n : Nat) : List Nat :=
  (List.range n).map (fun i => m (a + i))

/-- Write the bytes `bs` consecutively starting at address `a`
(destination of a `memcpy`). -/
def writeBytes : Mem → Addr → List Nat → Mem
  | m, _, [] => m
  | m, a, b :: bs => writeBytes (fun x => if x = a then b else m x) (a + 1) bs

/-! ### The registry: `boost::bimap<void*, var_id_type> locations_` -/

/-- `locations_.left.at(addr)`: the id registered for a base address. -/
def leftAt (l : List (Addr × Nat)) (a : Addr) : Option Nat :=
  (l.find? (fun p => p.1 = a)).map (fun p => p.2)

/-- `locations_.right.at(id)`: the base address registered under an id. -/
def rightAt (l : List (Addr × Nat)) (i : Nat) : Option Addr :=
  (l.find? (fun p => p.2 = i)).map (fun p => p.1)

/-- `locations_.insert(bimap_pair(a, i))`: boost::bimap insertion is a no-op
when either the left key or the right key is already present. -/
def bimapInsert (l : List (Addr × Nat)) (a : Addr) (i : Nat) : List (Addr × Nat) :=
  if l.any (fun p => p.1 = a ∨ p.2 = i) then l else l ++ [(a, i)]

/-- `locations_.left.erase(addr)`: removes the whole pair, both directions. -/
def bimapEraseLeft (l : List (Addr × Nat)) (a : Addr) : List (Addr × Nat) :=
  l.filter (fun p => p.1 ≠ a)

/-! ### Wire frames -/

/-- Header of a PUT frame (`world_provider::put_header`). -/
structure put_header where
  var_id : Nat
  data_offset : Nat
deriving Repr, DecidableEq

/-- A PUT frame as sent on the wire: header followed by the payload bytes. -/
structure PutFrame where
  header : put_header
  payload : List Nat
deriving Repr, DecidableEq

/-- A GET frame (`world_provider::get_header`; it has no payload).
`target` is the raw destination address in the requester's memory, used as
the requester handle. -/
structure get_header where
  var_id : Nat
  data_offset : Nat
  count : Nat
  size : Nat
  target : Addr
deriving Repr, DecidableEq

/-- Header of a GET_RESPONSE frame (`world_provider::get_response_header`). -/
structure get_response_header where
  target : Addr
  data_size : Nat
deriving Repr, DecidableEq

/-- A GET_RESPONSE frame: header followed by the payload bytes. -/
structure GetRespFrame where
  header : get_response_header
  payload : List Nat
deriving Repr, DecidableEq

/-! ### The per-peer engine state -/

/-- The state of one peer's `world_provider`, together with the peer's byte
memory that the engine's `memcpy` calls operate on.  `put_counts_` and
`get_counts_` are the per-destination counters (`std::vector<int>` of length
`nprocs_`); `vars_` is the next variable id. -/
structure world_provider where
  pid : Nat
  nprocs : Nat
  vars_ : Nat
  locations_ : List (Addr × Nat)
  put_counts_ : List Nat
  get_counts_ : List Nat
  remote_puts_ : Nat
  remote_gets_ : Nat
  local_gets_ : Nat
  mem : Mem

/-- `world_provider::put_to_self_`: a direct
`memcpy((char*)variable_ + size*offset, value, count*size)`. -/
def put_to_self_ (w : world_provider) (value variable_ : Addr)
    (size offset count : Nat) : world_provider :=
  { w with mem := writeBytes w.mem (variable_ + size * offset)
                    (readBytes w.mem value (count * size)) }

/-- `world_provider::get_from_self_`: a direct
`memcpy(target, (char*)variable_ + size*offset, count*size)`. -/
def get_from_self_ (w : world_provider) (variable_ target : Addr)
    (size offset count : Nat) : world_provider :=
  { w with mem := writeBytes w.mem target
                    (readBytes w.mem (variable_ + size * offset) (count * size)) }

/-- `world_provider::internal_put_`.  For a self put it short-circuits to
`put_to_self_` and sends nothing.  Otherwise it resolves the id of the variable via
`locations_.left.at` (failure of `.at` is `none`), builds the frame
`{var_id, offset*size}` followed by `size*count` bytes read from `value`,
sends it to `processor` with the PUT tag, and increments
`put_counts_[processor]`.  The result is the new state and the optionally
sent `(destination, frame)` pair. -/
def internal_put_ (w : world_provider) (processor : Nat) (value variable_ : Addr)
    (size offset count : Nat) :
    Option (world_provider × Option (Nat × PutFrame)) :=
  if processor = w.pid then
    some (put_to_self_ w value variable_ size offset count, none)
  else
    match leftAt w.locations_ variable_ with
    | none => none
    | some vid =>
      some ({ w with put_counts_ :=
                w.put_counts_.set processor (w.put_counts_.getD processor 0 + 1) },
            some (processor,
              { header := { var_id := vid, data_offset := offset * size },
                payload := readBytes w.mem value (size * count) }))

/-- `world_provider::internal_get_`.  For a self get it short-circuits to
`get_from_self_` and sends nothing.  Otherwise it resolves the id of the variable,
sends the header `{var_id, offset*size, count, size, target}` with the GET
tag, and increments `get_counts_[processor]` and `local_gets_`. -/
def internal_get_ (w : world_provider) (processor : Nat) (variable_ target : Addr)
    (size offset count : Nat) :
    Option (world_provider × Option (Nat × get_header)) :=
  if processor = w.pid then
    some (get_from_self_ w variable_ target size offset count, none)
  else
    match leftAt w.locations_ variable_ with
    | none => none
    | some vid =>
      some ({ w with
                get_counts_ :=
                  w.get_counts_.set processor (w.get_counts_.getD processor 0 + 1),
                local_gets_ := w.local_gets_ + 1 },
            some (processor,
              { var_id := vid, data_offset := offset * size,
                count := count, size := size, target := target }))

/-- `world_provider::register_location_`: inserts `(location, vars_)` into the
bimap and returns `vars_++`.  The insertion result is ignored by the source,
so an already-present key leaves the map unchanged while the counter still
advances.  (The `size` argument is ignored by the source as well.) -/
def register_location_ (w : world_provider) (location : Addr) (size : Nat) :
    world_provider × Nat :=
  (( { w with locations_ := bimapInsert w.locations_ location w.vars_,
              vars_ := w.vars_ + 1 } ), w.vars_)

/-- `world_provider::unregister_location_`: `locations_.left.erase(location)`. -/
def unregister_location_ (w : world_provider) (location : Addr) : world_provider :=
  { w with locations_ := bimapEraseLeft w.locations_ location }

/-- `world_provider::internal_send_` is declared `virtual` with an empty body
in the source: it transmits nothing and updates nothing. -/
def internal_send_ (w : world_provider) (processor : Nat)
    (tag content : List Nat) : world_provider :=
  w

/-- The pending-get table of a peer.  The source maintains no such table:
the requester routes a response through the raw destination address carried
in the frame's `target` field (see `internal_get_` and the response drain in
`sync`), so the table of every reachable state is empty. -/
def code_pending_table (w : world_provider) : List (Addr × Addr) :=
  []

/-! ### Inbound dispatch: the bodies of the three drain loops in `sync` -/

/-- Body of the PUT drain loop in `sync`: resolve `header.var_id` through
`locations_.right.at` and `memcpy` the payload to `base + data_offset`. -/
def applyPutFrame (w : world_provider) (f : PutFrame) : Option world_provider :=
  match rightAt w.locations_ f.header.var_id with
  | none => none
  | some base =>
    some { w with mem := writeBytes w.mem (base + f.header.data_offset) f.payload }

/-- Body of the GET drain loop in `sync`: resolve `var_id`, read
`size*count` bytes at `base + data_offset`, and build the GET_RESPONSE
`{target, size*count}` followed by those bytes.  The serving peer's state is
unchanged. -/
def serveGetFrame (w : world_provider) (h : get_header) : Option GetRespFrame :=
  match rightAt w.locations_ h.var_id with
  | none => none
  | some base =>
    some { header := { target := h.target, data_size := h.size * h.count },
           payload := readBytes w.mem (base + h.data_offset) (h.size * h.count) }

/-- Body of the GET_RESPONSE drain loop in `sync`:
`memcpy(header.target, payload, header.data_size)` — the payload is copied
to the raw address in `target`, unconditionally. -/
def applyRespFrame (w : world_provider) (f : GetRespFrame) : world_provider :=
  { w with mem := writeBytes w.mem f.header.target
                    (f.payload.take f.header.data_size) }

/-! ### The superstep engine `sync`, with its event trace -/

/-- An observable protocol step performed by `sync`.  `reduceScatter which n`
records the collective count exchange (`which = 0` for the put counters,
`which = 1` for the get counters) together with the value it returned. -/
inductive Event where
  | barrier : Event
  | reduceScatter : Nat → Nat → Event
  | recvPut : PutFrame → Event
  | recvGet : Nat → get_header → Event
  | sendGetResponse : Nat → GetRespFrame → Event
  | recvGetResponse : GetRespFrame → Event
  | resetCounters : Event
deriving Repr, DecidableEq

/-- `MPI_Reduce_scatter(..., MPI_SUM, ...)` with the all-ones receive-count
vector `ones_`: peer `p` receives the sum over every contributing rank of
entry `p` of that rank's vector. -/
def reduce_scatter_sum (contribs : List (List Nat)) (p : Nat) : Nat :=
  (contribs.map (fun row => row.getD p 0)).sum

/-- The first drain loop of `sync` (`while (remote_puts_ > 0)`), applied to
the PUT frames in their arrival order. -/
def drainPuts : world_provider → List PutFrame → Option (world_provider × List Event)
  | w, [] => some (w, [])
  | w, f :: fs => do
    let w1 ← applyPutFrame w f
    let (w2, evs) ← drainPuts w1 fs
    pure (w2, Event.recvPut f :: evs)

/-- The second drain loop of `sync` (`while (remote_gets_ > 0)`), applied to
the GET frames paired with their MPI source rank; each frame is answered with
a GET_RESPONSE sent back to that rank.  The state of the serving peer is not
modified. -/
def drainGets (w : world_provider) :
    List (Nat × get_header) → Option (List (Nat × GetRespFrame) × List Event)
  | [] => some ([], [])
  | (src, h) :: rest => do
    let f ← serveGetFrame w h
    let (resps, evs) ← drainGets w rest
    pure ((src, f) :: resps,
          Event.recvGet src h :: Event.sendGetResponse src f :: evs)

/-- The third drain loop of `sync` (`while (local_gets_ > 0)`), applied to the
GET_RESPONSE frames in their arrival order. -/
def drainResps : world_provider → List GetRespFrame → world_provider × List Event
  | w, [] => (w, [])
  | w, f :: fs =>
    let (w2, evs) := drainResps (applyRespFrame w f) fs
    (w2, Event.recvGetResponse f :: evs)

/-- `world_provider::sync`.  Inputs beyond the peer state are the network:
the put/get counter vectors contributed by all peers to the two
`MPI_Reduce_scatter` calls, and the PUT, GET and GET_RESPONSE frames
addressed to this peer in their arrival order (`sync` consumes exactly
`remote_puts_`, `remote_gets_` and `local_gets_` of them).  The result is
the post-sync state, the GET_RESPONSE frames this peer sent (with their
destinations), and the trace of protocol events:
entry barrier; the two reduce-scatters; the put drain; the get drain with one
response per frame; the mid barrier; the response drain; the counter reset;
the exit barrier. -/
def sync (w : world_provider) (allPut allGet : List (List Nat))
    (putFrames : List PutFrame) (getFrames : List (Nat × get_header))
    (respFrames : List GetRespFrame) :
    Option (world_provider × List (Nat × GetRespFrame) × List Event) := do
  let rp := reduce_scatter_sum allPut w.pid
  let rg := reduce_scatter_sum allGet w.pid
  let w0 := { w with remote_puts_ := rp, remote_gets_ := rg }
  let (w1, evP) ← drainPuts w0 (putFrames.take rp)
  let (resps, evG) ← drainGets w1 (getFrames.take rg)
  let (w2, evR) := drainResps w1 (respFrames.take w1.local_gets_)
  let w3 := { w2 with
                put_counts_ := List.replicate w2.put_counts_.length 0,
                get_counts_ := List.replicate w2.get_counts_.length 0,
                local_gets_ := 0, remote_puts_ := 0, remote_gets_ := 0 }
  pure (w3, resps,
    Event.barrier :: Event.reduceScatter 0 rp :: Event.reduceScatter 1 rg ::
      (evP ++ evG ++ Event.barrier :: (evR ++ [Event.resetCounters, Event.barrier])))

/-! ### The distributed system: all peers plus the MPI channels

Frames travel on per-(source, destination) FIFO channels, one family per MPI
tag.  A global superstep (`globalSync`) runs `sync` at every peer; the
deterministic delivery schedule merges the channels addressed to a peer in
ascending source order, which is one of the arrival orders MPI permits. -/

structure Sys where
  P : Nat
  peer : Nat → world_provider
  putChan : Nat → Nat → List PutFrame
  getChan : Nat → Nat → List get_header

/-- Issue `internal_put_` at peer `s`: the peer state is updated and, for a
remote put, the produced frame is appended to the PUT channel from `s` to its
destination. -/
def sysPut (sys : Sys) (s : Nat) (value variable_ : Addr)
    (dst size offset count : Nat) : Option Sys := do
  let (w, sent) ← internal_put_ (sys.peer s) dst value variable_ size offset count
  match sent with
  | none => pure { sys with peer := Function.update sys.peer s w }
  | some (d, f) =>
    pure { sys with
             peer := Function.update sys.peer s w,
             putChan := fun a b =>
               if a = s ∧ b = d then sys.putChan a b ++ [f] else sys.putChan a b }

/-- Issue `internal_get_` at peer `s`, appending a produced frame to the GET
channel from `s` to its destination. -/
def sysGet (sys : Sys) (s : Nat) (variable_ target : Addr)
    (dst size offset count : Nat) : Option Sys := do
  let (w, sent) ← internal_get_ (sys.peer s) dst variable_ target size offset count
  match sent with
  | none => pure { sys with peer := Function.update sys.peer s w }
  | some (d, h) =>
    pure { sys with
             peer := Function.update sys.peer s w,
             getChan := fun a b =>
               if a = s ∧ b = d then sys.getChan a b ++ [h] else sys.getChan a b }

/-- The PUT frames delivered to peer `d` during its sync, merged over the
sources in ascending order. -/
def deliveredPuts (sys : Sys) (d : Nat) : List PutFrame :=
  (List.range sys.P).flatMap (fun s => sys.putChan s d)

/-- The GET frames delivered to peer `d`, each paired with its MPI source. -/
def deliveredGets (sys : Sys) (d : Nat) : List (Nat × get_header) :=
  (List.range sys.P).flatMap (fun s => (sys.getChan s d).map (fun h => (s, h)))

/-- The put-counter matrix contributed to the first `MPI_Reduce_scatter`. -/
def allPutCounts (sys : Sys) : List (List Nat) :=
  (List.range sys.P).map (fun s => (sys.peer s).put_counts_)

/-- The get-counter matrix contributed to the second `MPI_Reduce_scatter`. -/
def allGetCounts (sys : Sys) : List (List Nat) :=
  (List.range sys.P).map (fun s => (sys.peer s).get_counts_)

/-- Peer `d` after its put-drain phase: the frames addressed to it, limited
to the `remote_puts_` it was told to expect, have been applied. -/
def peerAfterPuts (sys : Sys) (d : Nat) : Option world_provider := do
  let rp := reduce_scatter_sum (allPutCounts sys) (sys.peer d).pid
  let w0 := { sys.peer d with
                remote_puts_ := rp,
                remote_gets_ := reduce_scatter_sum (allGetCounts sys) (sys.peer d).pid }
  let (w1, _) ← drainPuts w0 ((deliveredPuts sys d).take rp)
  pure w1

/-- The GET_RESPONSE frames generated for requester `q` during the get-drain
phase, merged over the responders in ascending order.  Each responder serves
its gets against its post-put-drain memory (its `sync` drains puts before
gets). -/
def responsesTo (sys : Sys) (q : Nat) : Option (List GetRespFrame) := do
  let perResponder ← (List.range sys.P).mapM (fun r => do
    let wr ← peerAfterPuts sys r
    let rg := reduce_scatter_sum (allGetCounts sys) (sys.peer r).pid
    let (resps, _) ← drainGets wr ((deliveredGets sys r).take rg)
    pure ((resps.filter (fun p => p.1 = q)).map (fun p => p.2)))
  pure perResponder.flatten

/-- Peer `d` after a whole `sync`: puts drained, gets served, the mid
barrier passed, its own `local_gets_` responses drained, counters reset. -/
def peerAfterSync (sys : Sys) (d : Nat) : Option world_provider := do
  let w1 ← peerAfterPuts sys d
  let resps ← responsesTo sys d
  let (w2, _) := drainResps w1 (resps.take w1.local_gets_)
  pure { w2 with
           put_counts_ := List.replicate w2.put_counts_.length 0,
           get_counts_ := List.replicate w2.get_counts_.length 0,
           local_gets_ := 0, remote_puts_ := 0, remote_gets_ := 0 }

/-- One global superstep boundary: every peer runs `sync`; afterwards every
channel has been fully drained. -/
def globalSync (sys : Sys) : Option Sys := do
  let newPeers ← (List.range sys.P).mapM (peerAfterSync sys)
  pure { P := sys.P,
         peer := fun d => if d < sys.P then newPeers.getD d (sys.peer d) else sys.peer d,
         putChan := fun _ _ => [],
         getChan := fun _ _ => [] }

/-! ### The `var<T>` facade: ownership of a registration (`variable.hpp`) -/

/-- The engine-facing part of `var<T>::var_impl`: it owns a registered id. -/
structure VarImpl where
  id : Nat
deriving Repr, DecidableEq

/-- A `var<T>`: its `impl_` is a `std::unique_ptr<var_impl>`, null after the
var has been moved from. -/
structure Var where
  impl : Option VarImpl
deriving Repr, DecidableEq

/-- An action against the world performed while tearing a `var<T>` down. -/
inductive DtorAction where
  | barrier : DtorAction
  | unregister : Nat → DtorAction
deriving Repr, DecidableEq

/-- `var<T>::~var` followed by the implicit `unique_ptr` destruction: when
`impl_` is non-null it performs `world_.barrier()` and then `~var_impl`
unregisters the id; a moved-from var does neither. -/
def varDtor (v : Var) : List DtorAction :=
  match v.impl with
  | some i => [DtorAction.barrier, DtorAction.unregister i.id]
  | none => []

/-- `var(var&& other)`: `impl_ = std::move(other.impl_)` into a fresh var.
Returns (new var, moved-from var). -/
def varMoveCtor (other : Var) : Var × Var :=
  ({ impl := other.impl }, { impl := none })

/-- `operator=(var&& other)`: the `unique_ptr` move-assignment first destroys
the impl the destination held, which runs `~var_impl` (an unregistration with
no preceding barrier), then takes ownership.  Returns (destination, moved-from
source, actions performed during the assignment). -/
def varMoveAssign (dst other : Var) : Var × Var × List DtorAction :=
  ({ impl := other.impl }, { impl := none },
   match dst.impl with
   | some i => [DtorAction.unregister i.id]
   | none => [])

/-! ### Message queues, modelled from the spec

`internal_send_` is an empty `virtual` stub in `world_provider`; the MESSAGE
frame machinery (queue registry, message counters, the double-buffered inbox)
is not part of the sources under verification. -/

/-- A MESSAGE frame: `{ queue_id, tag_bytes, content_bytes }`. -/
structure MessageFrame where
  queue_id : Nat
  tag : List Nat
  content : List Nat
deriving Repr, DecidableEq

/-- Modelled from the spec: the message subsystem state that
`world_provider::internal_send_` (an empty virtual stub in the source) was
meant to drive — per-(source, destination) message counters, the in-flight
MESSAGE channels, and each inbox of messages readable in the current
superstep. -/
structure MsgSys where
  P : Nat
  msgCounts : Nat → Nat → Nat
  msgChan : Nat → Nat → List MessageFrame
  inbox : Nat → List MessageFrame

/-- Modelled from the spec: `send(dst, queue_id, tag, content)` builds a
MESSAGE frame, transmits it on the channel to `dst`, and increments the
corresponding message counter. -/
def msgSend (sys : MsgSys) (s dst queue_id : Nat) (tag content : List Nat) : MsgSys :=
  { sys with
      msgCounts := fun a b =>
        if a = s ∧ b = dst then sys.msgCounts a b + 1 else sys.msgCounts a b,
      msgChan := fun a b =>
        if a = s ∧ b = dst then
          sys.msgChan a b ++ [{ queue_id := queue_id, tag := tag, content := content }]
        else sys.msgChan a b }

/-- Modelled from the spec: the superstep boundary for messages — every frame
sent during the closing superstep becomes readable at its destination, the
channels are drained, and the counters are reset (delivery semantics match
puts). -/
def msgSync (sys : MsgSys) : MsgSys :=
  { sys with
      msgCounts := fun _ _ => 0,
      msgChan := fun _ _ => [],
      inbox := fun d => (List.range sys.P).flatMap (fun s => sys.msgChan s d) }

/-- The `locations_` registry never maps an id at or above `vars_`:
`register_location_` is the only inserter and it always inserts the current
counter value.  Used as a reachable-state hypothesis. -/
def idsBelowVars (w : world_provider) : Prop :=
  ∀ p ∈ w.locations_, p.2 < w.vars_

/-- A concrete two-peer provider state used by the witnesses: peer 0 of 2,
one registered location (base 100, id 0), all counters zero. -/
def sampleProvider : world_provider :=
  { pid := 0, nprocs := 2, vars_ := 1, locations_ := [(100, 0)],
    put_counts_ := [0, 0], get_counts_ := [0, 0], remote_puts_ := 0,
    remote_gets_ := 0, local_gets_ := 0, mem := fun _ => 0 }

instance (w : world_provider) : Decidable (idsBelowVars w) :=
  inferInstanceAs (Decidable (∀ p ∈ w.locations_, p.2 < w.vars_))

/-- A concrete two-peer system used by the witnesses: every peer has the
registry base 100 ↔ id 0, zero counters and identity-valued memory; all
channels are empty. -/
def sampleSys : Sys :=
  { P := 2,
    peer := fun x =>
      { pid := x, nprocs := 2, vars_ := 1, locations_ := [(100, 0)],
        put_counts_ := [0, 0], get_counts_ := [0, 0], remote_puts_ := 0,
        remote_gets_ := 0, local_gets_ := 0, mem := fun a => a },
    putChan := fun _ _ => [],
    getChan := fun _ _ => [] }

/-! ### Basic lemmas about memory -/

theorem readBytes_length (m : Mem) (a n : Nat) : (readBytes m a n).length = n := by
  simp [readBytes]

theorem writeBytes_apply_lt (bs : List Nat) (m : Mem) (a x : Nat) (h : x < a) :
    writeBytes m a bs x = m x := by
  induction bs generalizing m a with
  | nil => rfl
  | cons b bs ih =>
    rw [writeBytes, ih _ _ (Nat.lt_succ_of_lt h)]
    simp only [if_neg (Nat.ne_of_lt h)]

theorem writeBytes_apply_ge (bs : List Nat) (m : Mem) (a x : Nat)
    (h : a + bs.length ≤ x) : writeBytes m a bs x = m x := by
  induction bs generalizing m a with
  | nil => rfl
  | cons b bs ih =>
    have h' : (a + 1) + bs.length ≤ x := by
      simp only [List.length_cons] at h; omega
    have hax : x ≠ a := by
      simp only [List.length_cons] at h; omega
    rw [writeBytes, ih _ _ h']
    simp only [if_neg hax]

theorem writeBytes_apply_mem (bs : List Nat) (m : Mem) (a i : Nat)
    (h : i < bs.length) : writeBytes m a bs (a + i) = bs.getD i 0 := by
  induction bs generalizing m a i with
  | nil => simp at h
  | cons b bs ih =>
    cases i with
    | zero =>
      rw [Nat.add_zero, writeBytes, writeBytes_apply_lt _ _ _ _ (Nat.lt_succ_self a)]
      simp
    | succ i =>
      have : a + (i + 1) = (a + 1) + i := by omega
      rw [writeBytes, this, ih]
      · rfl
      · simpa using Nat.lt_of_succ_lt_succ h

theorem readBytes_writeBytes (m : Mem) (a : Nat) (bs : List Nat) :
    readBytes (writeBytes m a bs) a bs.length = bs := by
  apply List.ext_getElem
  · simp [readBytes]
  · intro i h1 h2
    simp only [readBytes, List.getElem_map, List.getElem_range]
    rw [writeBytes_apply_mem _ _ _ _ h2, List.getD_eq_getElem _ _ h2]

theorem readBytes_congr (m m' : Mem) (a n : Nat)
    (h : ∀ x, a ≤ x → x < a + n → m x = m' x) :
    readBytes m a n = readBytes m' a n := by
  simp only [readBytes]
  apply List.map_congr_left
  intro i hi
  exact h _ (Nat.le_add_right a i) (by
    have := List.mem_range.mp hi
    omega)

/-! ### Helper lemmas about sums and merges over the peer group -/

theorem sum_map_range_zero (P : Nat) (f : Nat → Nat)
    (h : ∀ x, x < P → f x = 0) : ((List.range P).map f).sum = 0 := by
  induction P with
  | zero => rfl
  | succ n ih =>
    rw [List.range_succ, List.map_append, List.sum_append]
    simp [h n (Nat.lt_succ_self n), ih (fun x hx => h x (Nat.lt_succ_of_lt hx))]

theorem sum_map_range_single (P s : Nat) (f : Nat → Nat) (hs : s < P)
    (h : ∀ x, x < P → x ≠ s → f x = 0) : ((List.range P).map f).sum = f s := by
  induction P with
  | zero => omega
  | succ n ih =>
    rw [List.range_succ, List.map_append, List.sum_append]
    by_cases hsn : s = n
    · subst hsn
      rw [sum_map_range_zero _ _ (fun x hx => h x (Nat.lt_succ_of_lt hx) (Nat.ne_of_lt hx))]
      simp
    · rw [ih (Nat.lt_of_le_of_ne (Nat.le_of_lt_succ hs) hsn)
            (fun x hx hxs => h x (Nat.lt_succ_of_lt hx) hxs)]
      simp [h n (Nat.lt_succ_self n) (fun hn => hsn hn.symm)]

theorem flatMap_range_nil {α : Type} (P : Nat) (f : Nat → List α)
    (h : ∀ x, x < P → f x = []) : (List.range P).flatMap f = [] := by
  induction P with
  | zero => rfl
  | succ n ih =>
    rw [List.range_succ, List.flatMap_append]
    simp [h n (Nat.lt_succ_self n), ih (fun x hx => h x (Nat.lt_succ_of_lt hx))]

theorem flatMap_range_single {α : Type} (P s : Nat) (f : Nat → List α) (hs : s < P)
    (h : ∀ x, x < P → x ≠ s → f x = []) : (List.range P).flatMap f = f s := by
  induction P with
  | zero => omega
  | succ n ih =>
    rw [List.range_succ, List.flatMap_append]
    by_cases hsn : s = n
    · subst hsn
      rw [flatMap_range_nil _ _ (fun x hx => h x (Nat.lt_succ_of_lt hx) (Nat.ne_of_lt hx))]
      simp
    · rw [ih (Nat.lt_of_le_of_ne (Nat.le_of_lt_succ hs) hsn)
            (fun x hx hxs => h x (Nat.lt_succ_of_lt hx) hxs)]
      simp [h n (Nat.lt_succ_self n) (fun hn => hsn hn.symm)]

theorem mapM_eq_some_map {α β : Type} (f : α → Option β) (g : α → β) :
    ∀ l : List α, (∀ x ∈ l, f x = some (g x)) → l.mapM f = some (l.map g)
  | [], _ => rfl
  | a :: l, h => by
    rw [List.mapM_cons, h a (List.mem_cons_self a l),
        mapM_eq_some_map f g l (fun x hx => h x (List.mem_cons_of_mem a hx))]
    rfl

theorem all_zero_eq_replicate (l : List Nat) (h : ∀ i ∈ l, i = 0) :
    List.replicate l.length 0 = l := by
  induction l with
  | nil => rfl
  | cons a l ih =>
    rw [List.length_cons, List.replicate_succ,
        ih (fun i hi => h i (List.mem_cons_of_mem a hi)),
        h a (List.mem_cons_self a l)]

/-! ### Lemmas about the drain loops -/

theorem applyPutFrame_spec (w : world_provider) (f : PutFrame) (base : Addr)
    (h : rightAt w.locations_ f.header.var_id = some base) :
    applyPutFrame w f =
      some { w with mem := writeBytes w.mem (base + f.header.data_offset) f.payload } := by
  simp [applyPutFrame, h]

/-- A successful put drain applies the frames left to right and records one
`recvPut` event per frame; no field other than `mem` and the transient
`remote_puts_` is touched. -/
theorem drainPuts_spec :
    ∀ (fs : List PutFrame) (w : world_provider),
      (∀ f ∈ fs, (rightAt w.locations_ f.header.var_id).isSome = true) →
      ∃ w', drainPuts w fs = some (w', fs.map Event.recvPut) ∧
        w'.locations_ = w.locations_ ∧ w'.pid = w.pid ∧ w'.nprocs = w.nprocs ∧
        w'.vars_ = w.vars_ ∧ w'.put_counts_ = w.put_counts_ ∧
        w'.get_counts_ = w.get_counts_ ∧ w'.local_gets_ = w.local_gets_ ∧
        w'.remote_puts_ = w.remote_puts_ ∧ w'.remote_gets_ = w.remote_gets_
  | [], w, _ => ⟨w, rfl, rfl, rfl, rfl, rfl, rfl, rfl, rfl, rfl, rfl⟩
  | f :: fs, w, h => by
    obtain ⟨base, hbase⟩ := Option.isSome_iff_exists.mp (h f (List.mem_cons_self f fs))
    set w1 : world_provider :=
      { w with mem := writeBytes w.mem (base + f.header.data_offset) f.payload } with hw1
    have hrec : ∀ g ∈ fs, (rightAt w1.locations_ g.header.var_id).isSome = true := by
      intro g hg; exact h g (List.mem_cons_of_mem f hg)
    obtain ⟨w', hw', hl, hp, hn, hv, hpc, hgc, hlg, hrp, hrg⟩ := drainPuts_spec fs w1 hrec
    refine ⟨w', ?_, hl, hp, hn, hv, hpc, hgc, hlg, hrp, hrg⟩
    simp [drainPuts, applyPutFrame_spec w f base hbase, ← hw1, hw']

/-- A successful get drain serves the frames left to right, pairing each with
the GET_RESPONSE sent back to its source, and records a `recvGet` /
`sendGetResponse` event pair per frame. -/
theorem drainGets_spec :
    ∀ (l : List (Nat × get_header)) (w : world_provider),
      (∀ p ∈ l, (rightAt w.locations_ p.2.var_id).isSome = true) →
      ∃ resps, drainGets w l =
          some (resps,
            (l.zip resps).flatMap (fun p =>
              [Event.recvGet p.1.1 p.1.2, Event.sendGetResponse p.1.1 p.2.2])) ∧
        resps.length = l.length ∧
        (∀ p ∈ l.zip resps, p.2.1 = p.1.1 ∧ serveGetFrame w p.1.2 = some p.2.2)
  | [], w, _ => ⟨[], rfl, rfl, by intro p hp; simp at hp⟩
  | (src, hd) :: l, w, h => by
    obtain ⟨base, hbase⟩ :=
      Option.isSome_iff_exists.mp (h (src, hd) (List.mem_cons_self _ l))
    have hserve : serveGetFrame w hd =
        some { header := { target := hd.target, data_size := hd.size * hd.count },
               payload := readBytes w.mem (base + hd.data_offset) (hd.size * hd.count) } := by
      simp [serveGetFrame, hbase]
    obtain ⟨resps, hres, hlen, hpt⟩ :=
      drainGets_spec l w (fun p hp => h p (List.mem_cons_of_mem _ hp))
    refine ⟨(src, { header := { target := hd.target, data_size := hd.size * hd.count },
                    payload := readBytes w.mem (base + hd.data_offset)
                                 (hd.size * hd.count) }) :: resps,
            ?_, by simp [hlen], ?_⟩
    · simp [drainGets, hserve, hres]
    · intro p hp
      rcases List.mem_cons.mp (by simpa [List.zip_cons_cons] using hp) with hp1 | hp2
      · subst hp1; exact ⟨rfl, hserve⟩
      · exact hpt p hp2

/-- The response drain applies the frames left to right and records one
`recvGetResponse` event per frame; only `mem` changes. -/
theorem drainResps_spec :
    ∀ (fs : List GetRespFrame) (w : world_provider),
      (drainResps w fs).2 = fs.map Event.recvGetResponse ∧
      (drainResps w fs).1.locations_ = w.locations_ ∧
      (drainResps w fs).1.pid = w.pid ∧
      (drainResps w fs).1.nprocs = w.nprocs ∧
      (drainResps w fs).1.vars_ = w.vars_ ∧
      (drainResps w fs).1.put_counts_ = w.put_counts_ ∧
      (drainResps w fs).1.get_counts_ = w.get_counts_ ∧
      (drainResps w fs).1.local_gets_ = w.local_gets_ ∧
      (drainResps w fs).1.remote_puts_ = w.remote_puts_ ∧
      (drainResps w fs).1.remote_gets_ = w.remote_gets_
  | [], w => by simp [drainResps]
  | f :: fs, w => by
    have := drainResps_spec fs (applyRespFrame w f)
    simpa [drainResps, applyRespFrame] using this

theorem getD_replicate_zero : ∀ (n i : Nat), (List.replicate n (0 : Nat)).getD i 0 = 0
  | 0, 0 => rfl
  | 0, _ + 1 => rfl
  | _ + 1, 0 => rfl
  | n + 1, i + 1 => getD_replicate_zero n i

theorem getD_set_self : ∀ (l : List Nat) (i v : Nat), i < l.length →
    (l.set i v).getD i 0 = v
  | [], i, v, h => absurd h (by simp)
  | _ :: _, 0, _, _ => rfl
  | _ :: l, i + 1, v, h =>
    getD_set_self l i v (by simpa using Nat.lt_of_succ_lt_succ h)

theorem getD_set_ne : ∀ (l : List Nat) (i j v : Nat), i ≠ j →
    (l.set i v).getD j 0 = l.getD j 0
  | [], _, _, _, _ => rfl
  | _ :: _, 0, 0, _, h => absurd rfl h
  | _ :: _, 0, _ + 1, _, _ => rfl
  | _ :: _, _ + 1, 0, _, _ => rfl
  | _ :: l, i + 1, j + 1, v, h =>
    getD_set_ne l i j v (fun e => h (by rw [e]))

theorem getD_map_range {α : Type} (P y : Nat) (g : Nat → α) (dflt : α) (h : y < P) :
    ((List.range P).map g).getD y dflt = g y := by
  have hlen : y < ((List.range P).map g).length := by simpa using h
  rw [List.getD_eq_getElem _ _ hlen]
  simp

theorem flatten_map_nil {α β : Type} : ∀ (l : List α),
    (l.map (fun _ => ([] : List β))).flatten = []
  | [] => rfl
  | _ :: l => flatten_map_nil l

theorem reduce_scatter_sum_map_range (P y : Nat) (rows : Nat → List Nat) :
    reduce_scatter_sum ((List.range P).map rows) y =
      ((List.range P).map (fun z => (rows z).getD y 0)).sum := by
  rw [reduce_scatter_sum, List.map_map]
  rfl

/-- Shared helper: applying a GET_RESPONSE whose payload length matches its
`data_size` writes exactly the payload at the handle address and nothing
else. -/
theorem applyRespFrame_writes (w : world_provider) (f : GetRespFrame)
    (hlen : f.payload.length = f.header.data_size) :
    readBytes (applyRespFrame w f).mem f.header.target f.header.data_size =
      f.payload ∧
    ∀ x, x < f.header.target ∨ f.header.target + f.header.data_size ≤ x →
      (applyRespFrame w f).mem x = w.mem x := by
  have htake : f.payload.take f.header.data_size = f.payload := by
    rw [← hlen]
    exact List.take_length f.payload
  constructor
  · show readBytes (writeBytes w.mem f.header.target
        (f.payload.take f.header.data_size)) f.header.target f.header.data_size =
      f.payload
    rw [htake, ← hlen]
    exact readBytes_writeBytes w.mem f.header.target f.payload
  · intro x hx
    show writeBytes w.mem f.header.target (f.payload.take f.header.data_size) x = w.mem x
    rw [htake]
    rcases hx with hx | hx
    · exact writeBytes_apply_lt _ _ _ _ hx
    · exact writeBytes_apply_ge _ _ _ _ (by rw [hlen]; exact hx)

/-! ### The claims -/

/-- C1: For every peer, `sync()` executes the superstep barrier protocol in
this exact order: an entry barrier; a reduce-scatter sum of `put_count[]`
yielding `remote_puts` and of `get_count[]` yielding `remote_gets` (so
`remote_puts` equals the sum over all senders of their `put_count` entry for
this peer); a drain of exactly `remote_puts` PUT frames; a drain of exactly
`remote_gets` GET frames, each answered with a GET_RESPONSE; a mid barrier;
a drain of exactly `local_gets` GET_RESPONSE frames; a reset of all
counters; and an exit barrier. -/
theorem sync_protocol_order
    (w : world_provider) (allPut allGet : List (List Nat))
    (pf : List PutFrame) (gf : List (Nat × get_header)) (rf : List GetRespFrame)
    (hpf : pf.length = reduce_scatter_sum allPut w.pid)
    (hgf : gf.length = reduce_scatter_sum allGet w.pid)
    (hrf : rf.length = w.local_gets_)
    (hres1 : ∀ f ∈ pf, (rightAt w.locations_ f.header.var_id).isSome = true)
    (hres2 : ∀ p ∈ gf, (rightAt w.locations_ p.2.var_id).isSome = true) :
    ∃ w' resps tr, sync w allPut allGet pf gf rf = some (w', resps, tr) ∧
      reduce_scatter_sum allPut w.pid =
        (allPut.map (fun row => row.getD w.pid 0)).sum ∧
      tr = Event.barrier ::
           Event.reduceScatter 0 (reduce_scatter_sum allPut w.pid) ::
           Event.reduceScatter 1 (reduce_scatter_sum allGet w.pid) ::
           (pf.map Event.recvPut ++
            (gf.zip resps).flatMap (fun p =>
              [Event.recvGet p.1.1 p.1.2, Event.sendGetResponse p.1.1 p.2.2]) ++
            Event.barrier ::
              (rf.map Event.recvGetResponse ++
               [Event.resetCounters, Event.barrier])) ∧
      (pf.map Event.recvPut).length = reduce_scatter_sum allPut w.pid ∧
      resps.length = reduce_scatter_sum allGet w.pid ∧
      (rf.map Event.recvGetResponse).length = w.local_gets_ ∧
      (∀ i ∈ w'.put_counts_, i = 0) ∧ (∀ i ∈ w'.get_counts_, i = 0) ∧
      w'.local_gets_ = 0 ∧ w'.remote_puts_ = 0 ∧ w'.remote_gets_ = 0 := by
  have htp : pf.take (reduce_scatter_sum allPut w.pid) = pf := by
    rw [← hpf]; exact List.take_length pf
  have htg : gf.take (reduce_scatter_sum allGet w.pid) = gf := by
    rw [← hgf]; exact List.take_length gf
  set w0 : world_provider :=
    { w with remote_puts_ := reduce_scatter_sum allPut w.pid,
             remote_gets_ := reduce_scatter_sum allGet w.pid } with hw0
  obtain ⟨w1, h1, hl1, hp1, hn1, hv1, hpc1, hgc1, hlg1, hrp1, hrg1⟩ :=
    drainPuts_spec pf w0 (by intro f hf; exact hres1 f hf)
  obtain ⟨resps, h2, hlen2, hpt2⟩ :=
    drainGets_spec gf w1 (by intro p hp; rw [hl1]; exact hres2 p hp)
  have htr : rf.take w1.local_gets_ = rf := by
    rw [hlg1]
    show rf.take w.local_gets_ = rf
    rw [← hrf]; exact List.take_length rf
  obtain ⟨hevR, hl3, hp3, hn3, hv3, hpc3, hgc3, hlg3, hrp3, hrg3⟩ :=
    drainResps_spec rf w1
  have hdr : drainResps w1 (rf.take w1.local_gets_) =
      ((drainResps w1 rf).1, rf.map Event.recvGetResponse) := by
    rw [htr, ← hevR]
  refine ⟨{ (drainResps w1 rf).1 with
              put_counts_ := List.replicate (drainResps w1 rf).1.put_counts_.length 0,
              get_counts_ := List.replicate (drainResps w1 rf).1.get_counts_.length 0,
              local_gets_ := 0, remote_puts_ := 0, remote_gets_ := 0 },
          resps, _, ?_, rfl, rfl, by simpa using hpf, by rw [hlen2, hgf],
          by simpa using hrf,
          fun i hi => List.eq_of_mem_replicate hi,
          fun i hi => List.eq_of_mem_replicate hi, rfl, rfl, rfl⟩
  simp only [sync, htp, htg, h1, h2, hdr, Option.bind_eq_bind, Option.some_bind]
  rfl

/-- Witness for C1 at a concrete two-peer instance: one incoming put, one
incoming get, one outstanding local get. -/
theorem sync_protocol_order_witness :
    ([({ header := { var_id := 0, data_offset := 0 }, payload := [42] } : PutFrame)].length =
        reduce_scatter_sum [[0, 0], [1, 0]]
          ({ pid := 0, nprocs := 2, vars_ := 1, locations_ := [(100, 0)],
             put_counts_ := [0, 0], get_counts_ := [0, 0], remote_puts_ := 0,
             remote_gets_ := 0, local_gets_ := 1, mem := fun _ => 0 } :
             world_provider).pid) ∧
    (∃ w' resps tr,
      sync { pid := 0, nprocs := 2, vars_ := 1, locations_ := [(100, 0)],
             put_counts_ := [0, 0], get_counts_ := [0, 0], remote_puts_ := 0,
             remote_gets_ := 0, local_gets_ := 1, mem := fun _ => 0 }
        [[0, 0], [1, 0]] [[0, 0], [1, 0]]
        [{ header := { var_id := 0, data_offset := 0 }, payload := [42] }]
        [(1, { var_id := 0, data_offset := 0, count := 1, size := 1, target := 200 })]
        [{ header := { target := 200, data_size := 1 }, payload := [7] }] =
        some (w', resps, tr) ∧
      reduce_scatter_sum [[0, 0], [1, 0]] 0 =
        ([[0, 0], [1, 0]].map (fun row => row.getD 0 0)).sum ∧
      tr = Event.barrier :: Event.reduceScatter 0 1 :: Event.reduceScatter 1 1 ::
           ([{ header := { var_id := 0, data_offset := 0 }, payload := [42] }].map
              Event.recvPut ++
            ([(1, { var_id := 0, data_offset := 0, count := 1, size := 1,
                    target := 200 })].zip resps).flatMap (fun p =>
              [Event.recvGet p.1.1 p.1.2, Event.sendGetResponse p.1.1 p.2.2]) ++
            Event.barrier ::
              ([{ header := { target := 200, data_size := 1 },
                  payload := [7] }].map Event.recvGetResponse ++
               [Event.resetCounters, Event.barrier])) ∧
      ([{ header := { var_id := 0, data_offset := 0 }, payload := [42] }].map
         Event.recvPut).length = 1 ∧
      resps.length = 1 ∧
      ([{ header := { target := 200, data_size := 1 },
          payload := [7] }].map Event.recvGetResponse).length = 1 ∧
      (∀ i ∈ w'.put_counts_, i = 0) ∧ (∀ i ∈ w'.get_counts_, i = 0) ∧
      w'.local_gets_ = 0 ∧ w'.remote_puts_ = 0 ∧ w'.remote_gets_ = 0) := by
  refine ⟨by decide, ?_⟩
  exact sync_protocol_order _ _ _ _ _ _ (by decide) (by decide) (by decide)
    (by decide) (by decide)

/-- C3: For every put with `dst != pid` on a registered region, the sender
builds a frame containing the locally resolved variable id, the byte offset
`element_size*offset`, and exactly `element_size*count` payload bytes copied
from the source, sends it with the PUT tag, and increments `put_count[dst]`;
the receiver, on draining that frame, resolves the id back to the registered
base and copies exactly the payload bytes to `base + byte_offset`, leaving
all other memory unchanged. -/
theorem put_frame_roundtrip
    (w r : world_provider) (dst : Nat) (value variable_ : Addr)
    (size offset count : Nat) (vid : Nat) (base : Addr)
    (hdst : dst ≠ w.pid)
    (hvid : leftAt w.locations_ variable_ = some vid)
    (hbase : rightAt r.locations_ vid = some base) :
    ∃ f : PutFrame,
      internal_put_ w dst value variable_ size offset count =
        some ({ w with put_counts_ :=
                  w.put_counts_.set dst (w.put_counts_.getD dst 0 + 1) },
              some (dst, f)) ∧
      f.header.var_id = vid ∧
      f.header.data_offset = size * offset ∧
      f.payload = readBytes w.mem value (size * count) ∧
      f.payload.length = size * count ∧
      ∃ r', applyPutFrame r f = some r' ∧
        readBytes r'.mem (base + size * offset) (size * count) =
          readBytes w.mem value (size * count) ∧
        (∀ x, x < base + size * offset ∨ base + size * offset + size * count ≤ x →
          r'.mem x = r.mem x) ∧
        r'.locations_ = r.locations_ ∧ r'.put_counts_ = r.put_counts_ ∧
        r'.get_counts_ = r.get_counts_ ∧ r'.local_gets_ = r.local_gets_ := by
  have hmul : offset * size = size * offset := Nat.mul_comm offset size
  refine ⟨{ header := { var_id := vid, data_offset := offset * size },
            payload := readBytes w.mem value (size * count) },
          by simp [internal_put_, hdst, hvid], rfl, hmul, rfl,
          readBytes_length w.mem value (size * count), ?_⟩
  refine ⟨_, applyPutFrame_spec r _ base hbase, ?_, ?_, rfl, rfl, rfl, rfl⟩
  · show readBytes
        (writeBytes r.mem (base + offset * size) (readBytes w.mem value (size * count)))
        (base + size * offset) (size * count) =
      readBytes w.mem value (size * count)
    rw [hmul]
    have := readBytes_writeBytes r.mem (base + size * offset)
      (readBytes w.mem value (size * count))
    rwa [readBytes_length] at this
  · intro x hx
    show writeBytes r.mem (base + offset * size)
        (readBytes w.mem value (size * count)) x = r.mem x
    rcases hx with hx | hx
    · exact writeBytes_apply_lt _ _ _ _ (by rw [hmul]; exact hx)
    · exact writeBytes_apply_ge _ _ _ _ (by rw [hmul, readBytes_length]; exact hx)

/-- Witness for C3: peer 0 puts 4 bytes at element offset 3 (element size 2)
of variable 0 toward peer 1; the bytes land at the registered base plus 6. -/
theorem put_frame_roundtrip_witness :
    ((1 : Nat) ≠ ({ pid := 0, nprocs := 2, vars_ := 1, locations_ := [(100, 0)],
                    put_counts_ := [0, 0], get_counts_ := [0, 0], remote_puts_ := 0,
                    remote_gets_ := 0, local_gets_ := 0, mem := fun x => x } :
                    world_provider).pid) ∧
    (∃ f : PutFrame,
      internal_put_
          { pid := 0, nprocs := 2, vars_ := 1, locations_ := [(100, 0)],
            put_counts_ := [0, 0], get_counts_ := [0, 0], remote_puts_ := 0,
            remote_gets_ := 0, local_gets_ := 0, mem := fun x => x }
          1 20 100 2 3 2 =
        some ({ pid := 0, nprocs := 2, vars_ := 1, locations_ := [(100, 0)],
                put_counts_ := List.set [0, 0] 1 (List.getD [0, 0] 1 0 + 1),
                get_counts_ := [0, 0], remote_puts_ := 0,
                remote_gets_ := 0, local_gets_ := 0, mem := fun x => x },
              some (1, f)) ∧
      f.header.var_id = 0 ∧
      f.header.data_offset = 2 * 3 ∧
      f.payload = readBytes (fun x => x) 20 (2 * 2) ∧
      f.payload.length = 2 * 2 ∧
      ∃ r', applyPutFrame
              { pid := 1, nprocs := 2, vars_ := 1, locations_ := [(500, 0)],
                put_counts_ := [0, 0], get_counts_ := [0, 0], remote_puts_ := 0,
                remote_gets_ := 0, local_gets_ := 0, mem := fun _ => 9 } f = some r' ∧
        readBytes r'.mem (500 + 2 * 3) (2 * 2) = readBytes (fun x => x) 20 (2 * 2) ∧
        (∀ x, x < 500 + 2 * 3 ∨ 500 + 2 * 3 + 2 * 2 ≤ x → r'.mem x = (fun _ => (9:Nat)) x) ∧
        r'.locations_ = [(500, 0)] ∧ r'.put_counts_ = [0, 0] ∧
        r'.get_counts_ = [0, 0] ∧ r'.local_gets_ = 0) := by
  exact ⟨by decide, put_frame_roundtrip _ _ _ _ _ _ _ _ _ _ (by decide) (by decide)
    (by decide)⟩

/-- C9: For every put or get with `dst == pid`, the operation short-circuits
to an immediate direct memory copy of `element_size*count` bytes between the
source/destination buffer and `target_base + element_size*offset`, outside
the barrier: no frame is sent, no counter (`put_count`, `get_count`,
`local_gets`) is incremented, and the effect is visible immediately rather
than at the next superstep. -/
theorem self_put_get_short_circuit
    (w : world_provider) (value variable_ target : Addr) (size offset count : Nat) :
    internal_put_ w w.pid value variable_ size offset count =
      some (put_to_self_ w value variable_ size offset count, none) ∧
    internal_get_ w w.pid variable_ target size offset count =
      some (get_from_self_ w variable_ target size offset count, none) ∧
    (put_to_self_ w value variable_ size offset count).put_counts_ = w.put_counts_ ∧
    (put_to_self_ w value variable_ size offset count).get_counts_ = w.get_counts_ ∧
    (put_to_self_ w value variable_ size offset count).local_gets_ = w.local_gets_ ∧
    readBytes (put_to_self_ w value variable_ size offset count).mem
        (variable_ + size * offset) (count * size) =
      readBytes w.mem value (count * size) ∧
    (get_from_self_ w variable_ target size offset count).put_counts_ = w.put_counts_ ∧
    (get_from_self_ w variable_ target size offset count).get_counts_ = w.get_counts_ ∧
    (get_from_self_ w variable_ target size offset count).local_gets_ = w.local_gets_ ∧
    readBytes (get_from_self_ w variable_ target size offset count).mem
        target (count * size) =
      readBytes w.mem (variable_ + size * offset) (count * size) := by
  refine ⟨by simp [internal_put_], by simp [internal_get_], rfl, rfl, rfl, ?_,
          rfl, rfl, rfl, ?_⟩
  · show readBytes
        (writeBytes w.mem (variable_ + size * offset)
          (readBytes w.mem value (count * size)))
        (variable_ + size * offset) (count * size) =
      readBytes w.mem value (count * size)
    have := readBytes_writeBytes w.mem (variable_ + size * offset)
      (readBytes w.mem value (count * size))
    rwa [readBytes_length] at this
  · show readBytes
        (writeBytes w.mem target
          (readBytes w.mem (variable_ + size * offset) (count * size)))
        target (count * size) =
      readBytes w.mem (variable_ + size * offset) (count * size)
    have := readBytes_writeBytes w.mem target
      (readBytes w.mem (variable_ + size * offset) (count * size))
    rwa [readBytes_length] at this

/-- C5: After every completed `sync()`, all internal counters (`put_count[]`
for every peer, `get_count[]` for every peer, `local_gets`, `remote_puts`,
`remote_gets`) are zero, so between supersteps all counters are zero, and a
`sync()` invoked with no intervening put/get/send operations is an
idempotent no-op that leaves every registered region and every counter
unchanged. -/
theorem sync_resets_counters_and_is_idempotent :
    (∀ (w : world_provider) (allPut allGet : List (List Nat))
        (pf : List PutFrame) (gf : List (Nat × get_header))
        (rf : List GetRespFrame) w' resps tr,
      sync w allPut allGet pf gf rf = some (w', resps, tr) →
      (∀ i ∈ w'.put_counts_, i = 0) ∧ (∀ i ∈ w'.get_counts_, i = 0) ∧
      w'.local_gets_ = 0 ∧ w'.remote_puts_ = 0 ∧ w'.remote_gets_ = 0) ∧
    (∀ (w : world_provider) (allPut allGet : List (List Nat))
        (pf : List PutFrame) (gf : List (Nat × get_header))
        (rf : List GetRespFrame),
      reduce_scatter_sum allPut w.pid = 0 →
      reduce_scatter_sum allGet w.pid = 0 →
      (∀ i ∈ w.put_counts_, i = 0) → (∀ i ∈ w.get_counts_, i = 0) →
      w.local_gets_ = 0 → w.remote_puts_ = 0 → w.remote_gets_ = 0 →
      sync w allPut allGet pf gf rf =
        some (w, [], [Event.barrier, Event.reduceScatter 0 0,
                      Event.reduceScatter 1 0, Event.barrier,
                      Event.resetCounters, Event.barrier])) := by
  constructor
  · intro w allPut allGet pf gf rf w' resps tr h
    simp only [sync, Option.bind_eq_bind] at h
    rcases hd1 : drainPuts
        { w with remote_puts_ := reduce_scatter_sum allPut w.pid,
                 remote_gets_ := reduce_scatter_sum allGet w.pid }
        (pf.take (reduce_scatter_sum allPut w.pid)) with _ | p1
    · rw [hd1] at h; simp at h
    · rw [hd1] at h
      simp only [Option.some_bind] at h
      rcases hd2 : drainGets p1.1 (gf.take (reduce_scatter_sum allGet w.pid)) with _ | p2
      · rw [hd2] at h; simp at h
      · rw [hd2] at h
        simp only [Option.some_bind] at h
        have hw' : w' = { (drainResps p1.1 (rf.take p1.1.local_gets_)).1 with
            put_counts_ := List.replicate
              (drainResps p1.1 (rf.take p1.1.local_gets_)).1.put_counts_.length 0,
            get_counts_ := List.replicate
              (drainResps p1.1 (rf.take p1.1.local_gets_)).1.get_counts_.length 0,
            local_gets_ := 0, remote_puts_ := 0, remote_gets_ := 0 } := by
          have := congrArg (fun o => o.map (fun x => x.1)) h.symm
          simpa using this
        subst hw'
        exact ⟨fun i hi => List.eq_of_mem_replicate hi,
               fun i hi => List.eq_of_mem_replicate hi, rfl, rfl, rfl⟩
  · intro w allPut allGet pf gf rf h1 h2 hz1 hz2 h3 h4 h5
    obtain ⟨pid, nprocs, vars, locs, pc, gc, rp, rg, lg, mm⟩ := w
    simp only at h1 h2 h3 h4 h5 hz1 hz2
    subst h3 h4 h5
    simp only [sync, h1, h2, List.take_zero, drainPuts, drainGets, drainResps,
      Option.bind_eq_bind, Option.some_bind, Option.pure_def, Option.some.injEq]
    rw [all_zero_eq_replicate pc hz1, all_zero_eq_replicate gc hz2]
    simp

/-- Witness for C5: a two-peer state with all counters zero; `sync` with no
incoming frames returns the state unchanged, and its result state has all
counters zero. -/
theorem sync_resets_counters_witness :
    ((∀ i ∈ ([0, 0] : List Nat), i = 0) ∧
     sync { pid := 0, nprocs := 2, vars_ := 1, locations_ := [(100, 0)],
            put_counts_ := [0, 0], get_counts_ := [0, 0], remote_puts_ := 0,
            remote_gets_ := 0, local_gets_ := 0, mem := fun _ => 0 }
        [[0, 0], [0, 0]] [[0, 0], [0, 0]] [] [] [] =
      some ({ pid := 0, nprocs := 2, vars_ := 1, locations_ := [(100, 0)],
              put_counts_ := [0, 0], get_counts_ := [0, 0], remote_puts_ := 0,
              remote_gets_ := 0, local_gets_ := 0, mem := fun _ => 0 },
            [], [Event.barrier, Event.reduceScatter 0 0, Event.reduceScatter 1 0,
                 Event.barrier, Event.resetCounters, Event.barrier])) := by
  refine ⟨by decide, ?_⟩
  exact sync_resets_counters_and_is_idempotent.2 _ _ _ _ _ _ (by decide) (by decide)
    (by decide) (by decide) (by decide) (by decide) (by decide)

theorem rightAt_vars_none (w : world_provider) (h : idsBelowVars w) :
    rightAt w.locations_ w.vars_ = none := by
  have : w.locations_.find? (fun p => p.2 = w.vars_) = none := by
    rw [List.find?_eq_none]
    intro p hp
    simp only [decide_eq_true_eq]
    exact Nat.ne_of_lt (h p hp)
  simp [rightAt, this]

/-- C7: `register_location_(base, size)` with a base that is not yet
registered allocates the next id and inserts both directions of the
base ↔ id mapping; calling it with a base that is already registered does
not succeed and return a fresh usable id: the mapping is left unchanged and
the returned id resolves to no base. -/
theorem register_location_spec (w : world_provider) (location : Addr) (size : Nat)
    (hvars : idsBelowVars w) :
    ((register_location_ w location size).2 = w.vars_ ∧
     (register_location_ w location size).1.vars_ = w.vars_ + 1) ∧
    (leftAt w.locations_ location = none →
      leftAt (register_location_ w location size).1.locations_ location =
        some w.vars_ ∧
      rightAt (register_location_ w location size).1.locations_ w.vars_ =
        some location) ∧
    (leftAt w.locations_ location ≠ none →
      (register_location_ w location size).1.locations_ = w.locations_ ∧
      rightAt (register_location_ w location size).1.locations_
        ((register_location_ w location size).2) = none) := by
  refine ⟨⟨rfl, rfl⟩, ?_, ?_⟩
  · intro hnone
    have hfind : w.locations_.find? (fun p => p.1 = location) = none := by
      rcases hf : w.locations_.find? (fun p => p.1 = location) with _ | p
      · exact hf
      · rw [leftAt, hf] at hnone
        simp at hnone
    have hany : w.locations_.any (fun p => p.1 = location ∨ p.2 = w.vars_) = false := by
      rw [List.any_eq_false]
      intro p hp
      have h1 : p.1 ≠ location := by
        have := List.find?_eq_none.mp hfind p hp
        simpa using this
      have h2 : p.2 ≠ w.vars_ := Nat.ne_of_lt (hvars p hp)
      simp only [decide_eq_true_eq, not_or]
      exact ⟨h1, h2⟩
    have hcond : ¬ ((w.locations_.any fun p => p.1 = location ∨ p.2 = w.vars_) = true) := by
      rw [hany]
      exact Bool.false_ne_true
    have hloc : (register_location_ w location size).1.locations_ =
        w.locations_ ++ [(location, w.vars_)] := by
      simp only [register_location_, bimapInsert]
      exact if_neg hcond
    constructor
    · rw [hloc]
      simp only [leftAt, List.find?_append, hfind, Option.none_or]
      rw [List.find?_cons_of_pos _ (by simp)]
      rfl
    · rw [hloc]
      have hfind2 : w.locations_.find? (fun p => p.2 = w.vars_) = none := by
        rw [List.find?_eq_none]
        intro p hp
        simp only [decide_eq_true_eq]
        exact Nat.ne_of_lt (hvars p hp)
      simp only [rightAt, List.find?_append, hfind2, Option.none_or]
      rw [List.find?_cons_of_pos _ (by simp)]
      rfl
  · intro hne
    rcases hfind : w.locations_.find? (fun p => p.1 = location) with _ | p
    · exact absurd (by simp [leftAt, hfind]) hne
    have hmem := List.mem_of_find?_eq_some hfind
    have hp1 : p.1 = location := by
      have := List.find?_some hfind
      simpa using this
    have hany : w.locations_.any (fun p => p.1 = location ∨ p.2 = w.vars_) = true := by
      rw [List.any_eq_true]
      exact ⟨p, hmem, by simp [hp1]⟩
    have hloc : (register_location_ w location size).1.locations_ = w.locations_ := by
      simp only [register_location_, bimapInsert]
      exact if_pos hany
    refine ⟨hloc, ?_⟩
    show rightAt (register_location_ w location size).1.locations_ w.vars_ = none
    rw [hloc]
    exact rightAt_vars_none w hvars

/-- Witness for C7: registering base 200 in a registry that maps base 100 to
id 0 succeeds with fresh id 1; registering base 100 again leaves the registry
unchanged and returns an id that resolves to no base. -/
theorem register_location_spec_witness :
    (idsBelowVars sampleProvider ∧
     leftAt sampleProvider.locations_ 200 = none ∧
     leftAt sampleProvider.locations_ 100 ≠ none) ∧
    (leftAt (register_location_ sampleProvider 200 4).1.locations_ 200 =
        some sampleProvider.vars_ ∧
     rightAt (register_location_ sampleProvider 200 4).1.locations_
        sampleProvider.vars_ = some 200) ∧
    ((register_location_ sampleProvider 100 4).1.locations_ =
        sampleProvider.locations_ ∧
     rightAt (register_location_ sampleProvider 100 4).1.locations_
        ((register_location_ sampleProvider 100 4).2) = none) := by
  refine ⟨⟨by decide, by decide, by decide⟩, ?_, ?_⟩
  · exact (register_location_spec sampleProvider 200 4 (by decide)).2.1 (by decide)
  · exact (register_location_spec sampleProvider 100 4 (by decide)).2.2 (by decide)

/-- C6 counterexample: the claim says a GET_RESPONSE whose handle is not in
the pending-get table is a fatal protocol error rather than being applied.
In the source there is no pending-get table (it is empty in every state), and
a GET_RESPONSE with a handle that was never issued by any get — here the raw
address 200, in a state with no outstanding gets at all — is applied
unconditionally: the payload byte 7 is written to address 200, with no error
of any kind. -/
theorem get_response_unknown_handle_is_applied :
    code_pending_table sampleProvider = [] ∧
    ((200, 200) ∈ code_pending_table sampleProvider → False) ∧
    sampleProvider.local_gets_ = 0 ∧
    (applyRespFrame sampleProvider
        { header := { target := 200, data_size := 1 }, payload := [7] }).mem 200 = 7 ∧
    sampleProvider.mem 200 = 0 := by
  exact ⟨rfl, by simp [code_pending_table], rfl, by decide, rfl⟩

/-- C6 (amended): Handling a GET_RESPONSE during step 6 of `sync()` copies
`data_size` payload bytes directly to the raw destination address carried in
the frame's requester handle (`header.target`), leaving all other memory and
all other state unchanged.  There is no pending-get table to consult, no
entry to remove, and no unknown-handle check: every response is applied
unconditionally. -/
theorem get_response_copies_to_handle_address
    (w : world_provider) (f : GetRespFrame)
    (hlen : f.payload.length = f.header.data_size) :
    readBytes (applyRespFrame w f).mem f.header.target f.header.data_size =
      f.payload ∧
    (∀ x, x < f.header.target ∨ f.header.target + f.header.data_size ≤ x →
      (applyRespFrame w f).mem x = w.mem x) ∧
    (applyRespFrame w f).locations_ = w.locations_ ∧
    (applyRespFrame w f).put_counts_ = w.put_counts_ ∧
    (applyRespFrame w f).get_counts_ = w.get_counts_ ∧
    (applyRespFrame w f).local_gets_ = w.local_gets_ ∧
    code_pending_table (applyRespFrame w f) = code_pending_table w := by
  exact ⟨(applyRespFrame_writes w f hlen).1, (applyRespFrame_writes w f hlen).2,
         rfl, rfl, rfl, rfl, rfl⟩

/-- Witness for the amended C6 at a concrete response frame: the two payload
bytes land at the handle address 300. -/
theorem get_response_copies_witness :
    (([(7 : Nat), 9] : List Nat).length = 2 ∧
     readBytes (applyRespFrame sampleProvider
         { header := { target := 300, data_size := 2 }, payload := [7, 9] }).mem
         300 2 = [7, 9]) ∧
    (∀ x, x < 300 ∨ 300 + 2 ≤ x →
      (applyRespFrame sampleProvider
          { header := { target := 300, data_size := 2 }, payload := [7, 9] }).mem x =
        sampleProvider.mem x) := by
  have h := get_response_copies_to_handle_address sampleProvider
    { header := { target := 300, data_size := 2 }, payload := [7, 9] } (by decide)
  exact ⟨⟨by decide, h.1⟩, h.2.1⟩

/-- C4 counterexample: the claim says the requester registers
`handle → dest_bytes` in the pending-get table.  The source maintains no
pending-get table at all: after a concrete remote get (destination address
300 serving as the handle), the table is still empty and contains no entry
for the handle. -/
theorem get_registers_no_pending_entry :
    internal_get_ sampleProvider 1 100 300 4 0 1 =
      some ({ pid := 0, nprocs := 2, vars_ := 1, locations_ := [(100, 0)],
              put_counts_ := [0, 0], get_counts_ := [0, 1], remote_puts_ := 0,
              remote_gets_ := 0, local_gets_ := 1, mem := fun _ => 0 },
            some (1, { var_id := 0, data_offset := 0, count := 1, size := 4,
                       target := 300 })) ∧
    code_pending_table
      { pid := 0, nprocs := 2, vars_ := 1, locations_ := [(100, 0)],
        put_counts_ := [0, 0], get_counts_ := [0, 1], remote_puts_ := 0,
        remote_gets_ := 0, local_gets_ := 1, mem := fun _ => 0 } = [] ∧
    ((300, 300) ∈ code_pending_table
        { pid := 0, nprocs := 2, vars_ := 1, locations_ := [(100, 0)],
          put_counts_ := [0, 0], get_counts_ := [0, 1], remote_puts_ := 0,
          remote_gets_ := 0, local_gets_ := 1, mem := fun _ => 0 } → False) := by
  exact ⟨rfl, rfl, by simp [code_pending_table]⟩

/-- C4 (amended): For every get with `dst != pid`, the requester sends a GET
frame carrying the resolved variable id, the byte offset, the element size,
the count and the requester handle — which is the raw destination address
itself, there being no pending-get table — and increments both
`get_count[dst]` and `local_gets`; the responder answers with a GET_RESPONSE
that echoes the handle and carries exactly `element_size*count` bytes read
from the registered region at that offset, and the requester copies exactly
those bytes to the raw destination address carried in the handle. -/
theorem get_frame_roundtrip
    (w r q : world_provider) (dst : Nat) (variable_ target : Addr)
    (size offset count : Nat) (vid : Nat) (base : Addr)
    (hdst : dst ≠ w.pid)
    (hvid : leftAt w.locations_ variable_ = some vid)
    (hbase : rightAt r.locations_ vid = some base) :
    internal_get_ w dst variable_ target size offset count =
      some ({ w with
                get_counts_ := w.get_counts_.set dst (w.get_counts_.getD dst 0 + 1),
                local_gets_ := w.local_gets_ + 1 },
            some (dst, { var_id := vid, data_offset := offset * size,
                         count := count, size := size, target := target })) ∧
    ∃ resp : GetRespFrame,
      serveGetFrame r { var_id := vid, data_offset := offset * size,
                        count := count, size := size, target := target } =
        some resp ∧
      resp.header.target = target ∧
      resp.header.data_size = size * count ∧
      resp.payload = readBytes r.mem (base + offset * size) (size * count) ∧
      resp.payload.length = size * count ∧
      readBytes (applyRespFrame q resp).mem target (size * count) = resp.payload ∧
      (∀ x, x < target ∨ target + size * count ≤ x →
        (applyRespFrame q resp).mem x = q.mem x) := by
  refine ⟨by simp [internal_get_, hdst, hvid], ?_⟩
  refine ⟨{ header := { target := target, data_size := size * count },
            payload := readBytes r.mem (base + offset * size) (size * count) },
          by simp [serveGetFrame, hbase], rfl, rfl, rfl,
          readBytes_length _ _ _, ?_, ?_⟩
  · exact (applyRespFrame_writes q
      { header := { target := target, data_size := size * count },
        payload := readBytes r.mem (base + offset * size) (size * count) }
      (readBytes_length _ _ _)).1
  · exact (applyRespFrame_writes q
      { header := { target := target, data_size := size * count },
        payload := readBytes r.mem (base + offset * size) (size * count) }
      (readBytes_length _ _ _)).2

/-- Witness for the amended C4: peer 0 gets one 4-byte element at offset 2 of
variable 0 from peer 1; the handle is the destination address 300. -/
theorem get_frame_roundtrip_witness :
    ((1 : Nat) ≠ sampleProvider.pid ∧
     leftAt sampleProvider.locations_ 100 = some 0 ∧
     rightAt sampleProvider.locations_ 0 = some 100) ∧
    (internal_get_ sampleProvider 1 100 300 4 2 1 =
      some ({ sampleProvider with
                get_counts_ :=
                  sampleProvider.get_counts_.set 1
                    (sampleProvider.get_counts_.getD 1 0 + 1),
                local_gets_ := sampleProvider.local_gets_ + 1 },
            some (1, { var_id := 0, data_offset := 2 * 4, count := 1, size := 4,
                       target := 300 })) ∧
     ∃ resp : GetRespFrame,
      serveGetFrame sampleProvider
          { var_id := 0, data_offset := 2 * 4, count := 1, size := 4,
            target := 300 } = some resp ∧
      resp.header.target = 300 ∧
      resp.header.data_size = 4 * 1 ∧
      resp.payload = readBytes sampleProvider.mem (100 + 2 * 4) (4 * 1) ∧
      resp.payload.length = 4 * 1 ∧
      readBytes (applyRespFrame sampleProvider resp).mem 300 (4 * 1) =
        resp.payload ∧
      (∀ x, x < 300 ∨ 300 + 4 * 1 ≤ x →
        (applyRespFrame sampleProvider resp).mem x = sampleProvider.mem x)) := by
  exact ⟨⟨by decide, by decide, by decide⟩,
         get_frame_roundtrip sampleProvider sampleProvider sampleProvider 1 100 300
           4 2 1 0 100 (by decide) (by decide) (by decide)⟩

/-- C10: For every `var<T>`, after a move construction or move assignment
the registration (and its id) belongs solely to the destination var, and
destroying the moved-from var performs neither the pre-unregistration
barrier nor an unregistration, so each registered region is unregistered
exactly once, by the var that last owns it. -/
theorem var_move_transfers_registration (i j : Nat) (src dst : Var)
    (hsrc : src.impl = some { id := i }) (hdst : dst.impl = some { id := j })
    (hij : i ≠ j) :
    ((varMoveCtor src).1.impl = some { id := i } ∧
     (varMoveCtor src).2.impl = none ∧
     varDtor (varMoveCtor src).2 = [] ∧
     varDtor (varMoveCtor src).1 = [DtorAction.barrier, DtorAction.unregister i] ∧
     (varDtor (varMoveCtor src).2 ++ varDtor (varMoveCtor src).1).count
       (DtorAction.unregister i) = 1) ∧
    ((varMoveAssign dst src).1.impl = some { id := i } ∧
     (varMoveAssign dst src).2.1.impl = none ∧
     varDtor (varMoveAssign dst src).2.1 = [] ∧
     (varMoveAssign dst src).2.2 = [DtorAction.unregister j] ∧
     ((varMoveAssign dst src).2.2 ++ varDtor (varMoveAssign dst src).2.1 ++
        varDtor (varMoveAssign dst src).1).count (DtorAction.unregister i) = 1 ∧
     ((varMoveAssign dst src).2.2 ++ varDtor (varMoveAssign dst src).2.1 ++
        varDtor (varMoveAssign dst src).1).count (DtorAction.unregister j) = 1) := by
  refine ⟨⟨by simp [varMoveCtor, hsrc], by simp [varMoveCtor], by simp [varMoveCtor, varDtor], ?_, ?_⟩,
          by simp [varMoveAssign, hsrc], by simp [varMoveAssign],
          by simp [varMoveAssign, varDtor], by simp [varMoveAssign, hdst], ?_, ?_⟩
  · simp [varMoveCtor, varDtor, hsrc]
  · simp [varMoveCtor, varDtor, hsrc, List.count_cons]
  · have hji : j ≠ i := fun h => hij h.symm
    simp [varMoveAssign, varDtor, hsrc, hdst, List.count_append, List.count_cons, hji]
  · simp [varMoveAssign, varDtor, hsrc, hdst, List.count_append, List.count_cons, hij]

/-- Witness for C10 with ids 0 and 1. -/
theorem var_move_transfers_registration_witness :
    (({ impl := some { id := 0 } } : Var).impl = some { id := 0 } ∧
     ({ impl := some { id := 1 } } : Var).impl = some { id := 1 } ∧
     (0 : Nat) ≠ 1) ∧
    (((varMoveCtor { impl := some { id := 0 } }).1.impl = some { id := 0 } ∧
      (varMoveCtor { impl := some { id := 0 } }).2.impl = none ∧
      varDtor (varMoveCtor { impl := some { id := 0 } }).2 = [] ∧
      varDtor (varMoveCtor { impl := some { id := 0 } }).1 =
        [DtorAction.barrier, DtorAction.unregister 0] ∧
      (varDtor (varMoveCtor { impl := some { id := 0 } }).2 ++
        varDtor (varMoveCtor { impl := some { id := 0 } }).1).count
        (DtorAction.unregister 0) = 1) ∧
     ((varMoveAssign { impl := some { id := 1 } } { impl := some { id := 0 } }).1.impl =
        some { id := 0 } ∧
      (varMoveAssign { impl := some { id := 1 } } { impl := some { id := 0 } }).2.1.impl =
        none ∧
      varDtor (varMoveAssign { impl := some { id := 1 } }
        { impl := some { id := 0 } }).2.1 = [] ∧
      (varMoveAssign { impl := some { id := 1 } } { impl := some { id := 0 } }).2.2 =
        [DtorAction.unregister 1] ∧
      ((varMoveAssign { impl := some { id := 1 } } { impl := some { id := 0 } }).2.2 ++
        varDtor (varMoveAssign { impl := some { id := 1 } }
          { impl := some { id := 0 } }).2.1 ++
        varDtor (varMoveAssign { impl := some { id := 1 } }
          { impl := some { id := 0 } }).1).count (DtorAction.unregister 0) = 1 ∧
      ((varMoveAssign { impl := some { id := 1 } } { impl := some { id := 0 } }).2.2 ++
        varDtor (varMoveAssign { impl := some { id := 1 } }
          { impl := some { id := 0 } }).2.1 ++
        varDtor (varMoveAssign { impl := some { id := 1 } }
          { impl := some { id := 0 } }).1).count (DtorAction.unregister 1) = 1)) := by
  exact ⟨⟨rfl, rfl, by decide⟩,
         var_move_transfers_registration 0 1 { impl := some { id := 0 } }
           { impl := some { id := 1 } } rfl rfl (by decide)⟩

/-- C8 (modelled from the spec; `internal_send_` is an empty virtual stub in
the source): For every destination peer, tag and content,
`send(dst, queue_id, tag, content)` builds a MESSAGE frame
`{queue_id, tag, content}`, transmits it, and increments the corresponding
message counter; the message is not readable at the destination before the
superstep boundary and becomes readable at the destination queue in the next
superstep, matching the delivery semantics of puts. -/
theorem send_builds_message_frame (sys : MsgSys) (s dst queue_id : Nat)
    (tag content : List Nat) (hs : s < sys.P) :
    (msgSend sys s dst queue_id tag content).msgCounts s dst =
      sys.msgCounts s dst + 1 ∧
    (msgSend sys s dst queue_id tag content).msgChan s dst =
      sys.msgChan s dst ++ [{ queue_id := queue_id, tag := tag, content := content }] ∧
    (msgSend sys s dst queue_id tag content).inbox dst = sys.inbox dst ∧
    ({ queue_id := queue_id, tag := tag, content := content } : MessageFrame) ∈
      (msgSync (msgSend sys s dst queue_id tag content)).inbox dst := by
  refine ⟨by simp [msgSend], by simp [msgSend], rfl, ?_⟩
  show _ ∈ (List.range sys.P).flatMap
    (fun src => (msgSend sys s dst queue_id tag content).msgChan src dst)
  rw [List.mem_flatMap]
  refine ⟨s, List.mem_range.mpr hs, ?_⟩
  simp [msgSend]

/-- Witness for C8: a two-peer message system with empty channels; peer 0
sends tag 123, content 1337 on queue 0 to peer 1. -/
theorem send_builds_message_frame_witness :
    ((0 : Nat) < 2 ∧
     (msgSend { P := 2, msgCounts := fun _ _ => 0, msgChan := fun _ _ => [],
                inbox := fun _ => [] } 0 1 0 [123] [57]).msgCounts 0 1 = 0 + 1 ∧
     (msgSend { P := 2, msgCounts := fun _ _ => 0, msgChan := fun _ _ => [],
                inbox := fun _ => [] } 0 1 0 [123] [57]).msgChan 0 1 =
       [] ++ [{ queue_id := 0, tag := [123], content := [57] }] ∧
     (msgSend { P := 2, msgCounts := fun _ _ => 0, msgChan := fun _ _ => [],
                inbox := fun _ => [] } 0 1 0 [123] [57]).inbox 1 = [] ∧
     ({ queue_id := 0, tag := [123], content := [57] } : MessageFrame) ∈
       (msgSync (msgSend { P := 2, msgCounts := fun _ _ => 0,
                           msgChan := fun _ _ => [], inbox := fun _ => [] }
                  0 1 0 [123] [57])).inbox 1) := by
  exact ⟨by decide,
         send_builds_message_frame
           { P := 2, msgCounts := fun _ _ => 0, msgChan := fun _ _ => [],
             inbox := fun _ => [] } 0 1 0 [123] [57] (by decide)⟩

/-- C2: For every pair of distinct peers `s` and `d` and every put issued by
`s` toward `d` during superstep `n`, the put's bytes are written into the
registered region of `d` during the `n`-th sync of `d` and not earlier: the
remote put issued in superstep `n` is visible at the receiver no earlier
than the start of superstep `n+1` and no later.  The system starts the
superstep in the between-supersteps state (all counters zero, channels
empty); after the put is issued the receiver's memory is untouched, and
after the global sync the payload sits at the registered base plus byte
offset, everything else unchanged. -/
theorem remote_put_visible_next_superstep
    (sys : Sys) (s d : Nat) (value variable_ : Addr)
    (size offset count : Nat) (vid : Nat) (base : Addr)
    (hs : s < sys.P) (hd : d < sys.P) (hsd : s ≠ d)
    (hpid : ∀ x, x < sys.P → (sys.peer x).pid = x)
    (hpc : ∀ x, x < sys.P → (sys.peer x).put_counts_ = List.replicate sys.P 0)
    (hgc : ∀ x, x < sys.P → (sys.peer x).get_counts_ = List.replicate sys.P 0)
    (hchP : ∀ a b, sys.putChan a b = [])
    (hchG : ∀ a b, sys.getChan a b = [])
    (hvid : leftAt (sys.peer s).locations_ variable_ = some vid)
    (hbase : rightAt (sys.peer d).locations_ vid = some base) :
    ∃ sys1, sysPut sys s value variable_ d size offset count = some sys1 ∧
      sys1.peer d = sys.peer d ∧
      ∃ sys2, globalSync sys1 = some sys2 ∧
        readBytes (sys2.peer d).mem (base + offset * size) (size * count) =
          readBytes (sys.peer s).mem value (size * count) ∧
        (∀ x, x < base + offset * size ∨
              base + offset * size + size * count ≤ x →
          (sys2.peer d).mem x = (sys.peer d).mem x) := by
  have hds : d ≠ s := fun h => hsd h.symm
  -- the frame and the sender state produced by internal_put_
  set f : PutFrame :=
    { header := { var_id := vid, data_offset := offset * size },
      payload := readBytes (sys.peer s).mem value (size * count) } with hf
  set w' : world_provider :=
    { sys.peer s with
        put_counts_ :=
          (sys.peer s).put_counts_.set d ((sys.peer s).put_counts_.getD d 0 + 1) }
    with hw'
  have hip : internal_put_ (sys.peer s) d value variable_ size offset count =
      some (w', some (d, f)) := by
    rw [internal_put_, if_neg (by rw [hpid s hs]; exact hds), hvid]
  -- the system right after the put is issued
  set sys1 : Sys :=
    { P := sys.P,
      peer := Function.update sys.peer s w',
      putChan := fun a b =>
        if a = s ∧ b = d then sys.putChan a b ++ [f] else sys.putChan a b,
      getChan := sys.getChan } with hsys1
  have hsysput : sysPut sys s value variable_ d size offset count = some sys1 := by
    rw [sysPut, hip]
    rfl
  have hpeer1d : sys1.peer d = sys.peer d := Function.update_noteq hds w' sys.peer
  have hpeer1 : ∀ y, y ≠ s → sys1.peer y = sys.peer y :=
    fun y hy => Function.update_noteq hy w' sys.peer
  have hpeer1s : sys1.peer s = w' := Function.update_same s w' sys.peer
  have hw'pc : w'.put_counts_ = (List.replicate sys.P 0).set d 1 := by
    rw [hw']
    show (sys.peer s).put_counts_.set d ((sys.peer s).put_counts_.getD d 0 + 1) =
      (List.replicate sys.P 0).set d 1
    rw [hpc s hs, getD_replicate_zero]
  have hpid1 : ∀ y, y < sys.P → (sys1.peer y).pid = y := by
    intro y hy
    by_cases hys : y = s
    · subst hys
      rw [hpeer1s]
      show (sys.peer y).pid = y
      exact hpid y hy
    · rw [hpeer1 y hys]
      exact hpid y hy
  -- the reduce-scatter results seen by every peer
  have hputrow : ∀ z, z < sys.P →
      (sys1.peer z).put_counts_ = if z = s then (List.replicate sys.P 0).set d 1
        else List.replicate sys.P 0 := by
    intro z hz
    by_cases hzs : z = s
    · subst hzs
      rw [hpeer1s, hw'pc, if_pos rfl]
    · rw [hpeer1 z hzs, if_neg hzs]
      exact hpc z hz
  have hgetrow : ∀ z, z < sys.P →
      (sys1.peer z).get_counts_ = List.replicate sys.P 0 := by
    intro z hz
    by_cases hzs : z = s
    · subst hzs
      rw [hpeer1s]
      show (sys.peer z).get_counts_ = List.replicate sys.P 0
      exact hgc z hz
    · rw [hpeer1 z hzs]
      exact hgc z hz
  have hrsP : ∀ y, y < sys.P →
      reduce_scatter_sum (allPutCounts sys1) y = if y = d then 1 else 0 := by
    intro y hy
    have h1 : allPutCounts sys1 =
        (List.range sys.P).map (fun z => (sys1.peer z).put_counts_) := rfl
    rw [h1, reduce_scatter_sum_map_range]
    by_cases hyd : y = d
    · subst hyd
      rw [if_pos rfl]
      rw [sum_map_range_single sys.P s _ hs]
      · rw [hputrow s hs, if_pos rfl, getD_set_self]
        simpa using hd
      · intro z hz hzs
        rw [hputrow z hz, if_neg hzs, getD_replicate_zero]
    · rw [if_neg hyd]
      apply sum_map_range_zero
      intro z hz
      rw [hputrow z hz]
      by_cases hzs : z = s
      · rw [if_pos hzs, getD_set_ne _ _ _ _ (fun e => hyd e.symm), getD_replicate_zero]
      · rw [if_neg hzs, getD_replicate_zero]
  have hrsG : ∀ y, reduce_scatter_sum (allGetCounts sys1) y = 0 := by
    intro y
    have h1 : allGetCounts sys1 =
        (List.range sys.P).map (fun z => (sys1.peer z).get_counts_) := rfl
    rw [h1, reduce_scatter_sum_map_range]
    apply sum_map_range_zero
    intro z hz
    rw [hgetrow z hz, getD_replicate_zero]
  -- the frames delivered to every peer
  have hch1 : ∀ a b, sys1.putChan a b = if a = s ∧ b = d then [f] else [] := by
    intro a b
    show (if a = s ∧ b = d then sys.putChan a b ++ [f] else sys.putChan a b) = _
    by_cases h : a = s ∧ b = d
    · rw [if_pos h, if_pos h, hchP]
      rfl
    · rw [if_neg h, if_neg h, hchP]
  have hdelivPd : deliveredPuts sys1 d = [f] := by
    rw [deliveredPuts]
    show (List.range sys.P).flatMap (fun z => sys1.putChan z d) = [f]
    have h1 : (List.range sys.P).flatMap (fun z => sys1.putChan z d) =
        sys1.putChan s d :=
      flatMap_range_single sys.P s _ hs (fun x hx hxs => by
        rw [hch1]
        exact if_neg (fun hc => hxs hc.1))
    rw [h1, hch1, if_pos ⟨rfl, rfl⟩]
  have hdelivPn : ∀ y, y ≠ d → deliveredPuts sys1 y = [] := by
    intro y hyd
    rw [deliveredPuts]
    show (List.range sys.P).flatMap (fun z => sys1.putChan z y) = []
    apply flatMap_range_nil
    intro x hx
    rw [hch1]
    exact if_neg (fun hc => hyd hc.2)
  have hdelivG : ∀ y, deliveredGets sys1 y = [] := by
    intro y
    rw [deliveredGets]
    show (List.range sys.P).flatMap
      (fun z => (sys1.getChan z y).map (fun h => (z, h))) = []
    apply flatMap_range_nil
    intro x hx
    show (sys.getChan x y).map (fun h => (x, h)) = []
    rw [hchG]
    rfl
  -- every peer's put-drain phase
  have hpap : ∀ y, y < sys.P → peerAfterPuts sys1 y =
      some (if y = d then
        { sys.peer d with
            remote_puts_ := 1, remote_gets_ := 0,
            mem := writeBytes (sys.peer d).mem (base + offset * size) f.payload }
      else
        { sys1.peer y with remote_puts_ := 0, remote_gets_ := 0 }) := by
    intro y hy
    by_cases hyd : y = d
    · subst hyd
      have happ : applyPutFrame
          { sys.peer y with remote_puts_ := 1, remote_gets_ := 0 } f =
          some { sys.peer y with
                 remote_puts_ := 1, remote_gets_ := 0,
                 mem := writeBytes (sys.peer y).mem (base + offset * size) f.payload } :=
        applyPutFrame_spec _ f base hbase
      have hdrain : drainPuts
          { sys.peer y with remote_puts_ := 1, remote_gets_ := 0 } [f] =
          some ({ sys.peer y with
                  remote_puts_ := 1, remote_gets_ := 0,
                  mem := writeBytes (sys.peer y).mem (base + offset * size) f.payload },
                [Event.recvPut f]) := by
        simp only [drainPuts, happ, Option.bind_eq_bind, Option.some_bind]
        rfl
      rw [peerAfterPuts, hpid1 y hy, hrsP y hy, if_pos rfl, hrsG, hdelivPd,
          hpeer1d]
      show (drainPuts { sys.peer y with remote_puts_ := 1, remote_gets_ := 0 }
        ([f].take 1)).bind _ = _
      rw [List.take_succ_cons, List.take_zero, hdrain]
      rw [if_pos rfl]
      rfl
    · rw [peerAfterPuts, hpid1 y hy, hrsP y hy, if_neg hyd, hrsG,
          hdelivPn y hyd]
      show (drainPuts { sys1.peer y with remote_puts_ := 0, remote_gets_ := 0 }
        (List.take 0 [])).bind _ = _
      rw [List.take_nil]
      rw [if_neg hyd]
      rfl
  -- nobody owes or is owed any get responses
  have hresp : ∀ q, responsesTo sys1 q = some [] := by
    intro q
    rw [responsesTo]
    have hP1 : sys1.P = sys.P := rfl
    rw [hP1]
    have hmapm := mapM_eq_some_map
      (fun r => do
        let wr ← peerAfterPuts sys1 r
        let rg := reduce_scatter_sum (allGetCounts sys1) (sys1.peer r).pid
        let (resps, _) ← drainGets wr ((deliveredGets sys1 r).take rg)
        pure ((resps.filter (fun p => p.1 = q)).map (fun p => p.2)))
      (fun _ => ([] : List GetRespFrame)) (List.range sys.P) (by
        intro r hr
        have hrP : r < sys.P := List.mem_range.mp hr
        simp only [hpap r hrP, hdelivG r, List.take_nil, drainGets,
          Option.bind_eq_bind, Option.some_bind]
        rfl)
    rw [hmapm]
    show some (((List.range sys.P).map (fun _ => [])).flatten) = some []
    rw [flatten_map_nil]
  -- every peer's full sync
  set G : Nat → world_provider := fun y =>
    if y = d then
      { sys.peer d with
          put_counts_ := List.replicate (sys.peer d).put_counts_.length 0,
          get_counts_ := List.replicate (sys.peer d).get_counts_.length 0,
          local_gets_ := 0, remote_puts_ := 0, remote_gets_ := 0,
          mem := writeBytes (sys.peer d).mem (base + offset * size) f.payload }
    else
      { sys1.peer y with
          put_counts_ := List.replicate (sys1.peer y).put_counts_.length 0,
          get_counts_ := List.replicate (sys1.peer y).get_counts_.length 0,
          local_gets_ := 0, remote_puts_ := 0, remote_gets_ := 0 } with hG
  have hpas : ∀ y ∈ List.range sys.P, peerAfterSync sys1 y = some (G y) := by
    intro y hy
    have hyP : y < sys.P := List.mem_range.mp hy
    rw [peerAfterSync, hpap y hyP, hresp y]
    simp only [Option.bind_eq_bind, Option.some_bind, List.take_nil, drainResps]
    by_cases hyd : y = d
    · subst hyd
      simp [hG]
    · simp [hG, hyd]
  have hmapm2 := mapM_eq_some_map (peerAfterSync sys1) G (List.range sys.P) hpas
  have hglobal : globalSync sys1 = some
      { P := sys.P,
        peer := fun y => if y < sys.P then
            ((List.range sys.P).map G).getD y (sys1.peer y)
          else sys1.peer y,
        putChan := fun _ _ => [], getChan := fun _ _ => [] } := by
    rw [globalSync]
    have hP1 : sys1.P = sys.P := rfl
    rw [hP1, hmapm2]
    rfl
  have hGd : G d = { sys.peer d with
      put_counts_ := List.replicate (sys.peer d).put_counts_.length 0,
      get_counts_ := List.replicate (sys.peer d).get_counts_.length 0,
      local_gets_ := 0, remote_puts_ := 0, remote_gets_ := 0,
      mem := writeBytes (sys.peer d).mem (base + offset * size) f.payload } := by
    simp [hG]
  have hlen : f.payload.length = size * count := readBytes_length _ _ _
  refine ⟨sys1, hsysput, hpeer1d, _, hglobal, ?_, ?_⟩
  · show readBytes
        (if d < sys.P then ((List.range sys.P).map G).getD d (sys1.peer d)
         else sys1.peer d).mem (base + offset * size) (size * count) =
      readBytes (sys.peer s).mem value (size * count)
    rw [if_pos hd, getD_map_range _ _ _ _ hd, hGd]
    show readBytes (writeBytes (sys.peer d).mem (base + offset * size) f.payload)
        (base + offset * size) (size * count) =
      readBytes (sys.peer s).mem value (size * count)
    have h := readBytes_writeBytes (sys.peer d).mem (base + offset * size) f.payload
    rw [hlen] at h
    exact h
  · intro x hx
    show (if d < sys.P then ((List.range sys.P).map G).getD d (sys1.peer d)
          else sys1.peer d).mem x = (sys.peer d).mem x
    rw [if_pos hd, getD_map_range _ _ _ _ hd, hGd]
    show writeBytes (sys.peer d).mem (base + offset * size) f.payload x =
      (sys.peer d).mem x
    rcases hx with hx | hx
    · exact writeBytes_apply_lt _ _ _ _ hx
    · apply writeBytes_apply_ge
      rw [hlen]
      exact hx

/-- Witness for C2: peer 0 of the two-peer sample system puts 4 bytes (two
elements of size 2, from address 20, at element offset 3) into variable 0 of
peer 1; nothing is visible at peer 1 before the sync and the bytes sit at
106..109 afterwards. -/
theorem remote_put_visible_witness :
    ((0 : Nat) < sampleSys.P ∧ (1 : Nat) < sampleSys.P ∧ (0 : Nat) ≠ 1 ∧
     leftAt (sampleSys.peer 0).locations_ 100 = some 0 ∧
     rightAt (sampleSys.peer 1).locations_ 0 = some 100) ∧
    (∃ sys1, sysPut sampleSys 0 20 100 1 2 3 2 = some sys1 ∧
      sys1.peer 1 = sampleSys.peer 1 ∧
      ∃ sys2, globalSync sys1 = some sys2 ∧
        readBytes (sys2.peer 1).mem (100 + 3 * 2) (2 * 2) =
          readBytes (sampleSys.peer 0).mem 20 (2 * 2) ∧
        (∀ x, x < 100 + 3 * 2 ∨ 100 + 3 * 2 + 2 * 2 ≤ x →
          (sys2.peer 1).mem x = (sampleSys.peer 1).mem x)) := by
  refine ⟨⟨by decide, by decide, by decide, by decide, by decide⟩, ?_⟩
  exact remote_put_visible_next_superstep sampleSys 0 1 20 100 2 3 2 0 100
    (by decide) (by decide) (by decide) (fun x _ => rfl) (fun x _ => rfl)
    (fun x _ => rfl) (fun a b => rfl) (fun a b => rfl) (by decide) (by decide)

end Bulk
